import Mathlib

set_option maxRecDepth 8000

/-!
Verification of the tree-sitter Java grammar (`src/grammar.js`) against its
natural-language specification.

The grammar file is a declarative tree-sitter rule set.  We shallowly embed
the parts the claims are about:

* the operator-precedence table `PREC` (grammar.js lines 18-43), copied value
  for value;
* the lexical layer (whitespace/comment trivia, identifiers, numeric and
  string/character tokens) as an executable maximal-munch lexer over
  `List Char`;
* the expression sublanguage (binary/assignment/ternary/field-access/
  array-access/parenthesized forms) as an executable precedence-climbing
  recognizer over token lists.  Precedence climbing with the table levels and
  the `prec.left`/`prec.right` annotations of the source is the standard
  semantics of those declarations; the GLR engine itself is an external
  collaborator and out of scope;
* the supertype alternative sets, the `_reserved_identifier` rule, the
  relevant declaration rules (`local_variable_declaration`,
  `record_declaration`), the `switch_block` rule and the string-literal /
  interpolation rules, each translated from the corresponding rule of
  `grammar.js`.

All recursive functions take an explicit fuel argument (structural recursion
on `Nat`) so that every definition is computable and kernel-reducible; the
top-level wrappers supply fuel that bounds the recursion depth of any parse
of the given token list.
-/

/-! ### The precedence table (grammar.js, `PREC`, lines 18-43) -/

namespace PREC

def COMMENT : Nat := 0

def ASSIGN : Nat := 1

def DECL : Nat := 2

def ELEMENT_VAL : Nat := 2

def TERNARY : Nat := 3

def OR : Nat := 4

def AND : Nat := 5

def BIT_OR : Nat := 6

def BIT_XOR : Nat := 7

def BIT_AND : Nat := 8

def EQUALITY : Nat := 9

def GENERIC : Nat := 10

def REL : Nat := 10

def SHIFT : Nat := 11

def ADD : Nat := 12

def MULT : Nat := 13

def CAST : Nat := 14

def OBJ_INST : Nat := 14

def UNARY : Nat := 15

def ARRAY : Nat := 16

def OBJ_ACCESS : Nat := 16

def PARENS : Nat := 16

def CLASS_LITERAL : Nat := 17

end PREC

/-! ### Identifier character classes (grammar.js line 1290)

The `identifier` token is the regular expression

  `/[\p{XID_Start}_$][\p{XID_Continue}¢_$]*/`

The Unicode properties `XID_Start` / `XID_Continue` are external data, so the
matcher is parameterized by the two character classes; `uXidStart` and
`uXidContinue` below are a concrete finite restriction of those properties
(to the ASCII range) that is correct on every character any theorem in this
file evaluates them at — in particular `'a'` has `XID_Start` and U+00A2
(the cent sign, general category Sc) does not have `XID_Continue`. -/

/-- First character class of the source regex: `[\p{XID_Start}_$]`. -/
def identStartClass (xidStart : Char → Bool) (c : Char) : Bool :=
  xidStart c || c = '_' || c = '$'

/-- Later character class of the source regex: `[\p{XID_Continue}¢_$]`.
Note the extra literal `¢` present in the source. -/
def identContClass (xidCont : Char → Bool) (c : Char) : Bool :=
  xidCont c || c = '¢' || c = '_' || c = '$'

/-- Whether a whole string is matched by the source `identifier` token
(grammar.js line 1290), over abstract `XID_Start`/`XID_Continue` classes. -/
def identTokenMatch (xidStart xidCont : Char → Bool) : List Char → Bool
  | [] => false
  | c :: rest => identStartClass xidStart c && rest.all (identContClass xidCont)

/-- The identifier shape as the specification words it: XID-start followed by
XID-continue characters, with `_` and `$` additionally allowed everywhere,
and nothing else.  (Second definition, following the spec's words, for the
refinement comparison of claim C7.) -/
def identSpecMatch (xidStart xidCont : Char → Bool) : List Char → Bool
  | [] => false
  | c :: rest =>
    (xidStart c || c = '_' || c = '$') &&
      rest.all (fun d => xidCont d || d = '_' || d = '$')

/-- The amended spec wording: subsequent characters may also be U+00A2. -/
def identSpecAmendedMatch (xidStart xidCont : Char → Bool) : List Char → Bool
  | [] => false
  | c :: rest =>
    (xidStart c || c = '_' || c = '$') &&
      rest.all (fun d => xidCont d || d = '_' || d = '$' || d = '¢')

/-- Concrete restriction of Unicode `XID_Start` to ASCII letters. -/
def uXidStart (c : Char) : Bool :=
  ('a' ≤ c && c ≤ 'z') || ('A' ≤ c && c ≤ 'Z')

/-- Concrete restriction of Unicode `XID_Continue` to ASCII letters and
digits.  U+00A2 correctly fails this class, as it does the real property. -/
def uXidContinue (c : Char) : Bool :=
  uXidStart c || ('0' ≤ c && c ≤ '9')

/-! ### The lexical layer (grammar.js lines 12-14, 50-54, 118-225, 1290-1301)

A total maximal-munch lexer.  Trivia (`extras`, lines 50-54: `line_comment`,
`block_comment`, `/\s/`) are produced as ordinary tokens carrying their text,
mirroring how tree-sitter attaches them between any two tokens of the tree.
Every unrecognized byte becomes a one-character `errTok` token, mirroring
tree-sitter's error tokens; so lexing never discards input.  The fine-grained
split of numeric literals into the decimal/hex/octal/binary/float rules is
collapsed into a single maximal-munch `number` kind: the claims under test
concern the token *texts*, not the numeric sub-kind. -/

inductive TokKind where
  | ws
  | lineComment
  | blockComment
  | ident
  | number
  | strLit
  | charLit
  | sym
  | errTok
deriving DecidableEq, Repr

structure Token where
  kind : TokKind
  text : List Char
deriving DecidableEq, Repr

/-- Whitespace per the `/\s/` extra. -/
def isWsChar (c : Char) : Bool :=
  c = ' ' || c = '\t' || c = '\n' || c = '\r' || c = '\x0b' || c = '\x0c'

/-- Characters that continue an identifier token: the source class
`[\p{XID_Continue}¢_$]` at the concrete Unicode restriction. -/
def identContChar (c : Char) : Bool :=
  identContClass uXidContinue c

/-- Characters that start an identifier token: `[\p{XID_Start}_$]`. -/
def identStartChar (c : Char) : Bool :=
  identStartClass uXidStart c

/-- Characters that may continue a numeric literal token (digits, `_`
separators, `.`, exponent/suffix/hex letters; grammar.js lines 12-14,
118-160). -/
def numContChar (c : Char) : Bool :=
  c.isDigit || c.isAlpha || c = '_' || c = '.'

/-- Scan the body of a block comment `/*...*/` (grammar.js lines 1295-1301):
consume up to and including the first `*/`, or everything on unterminated
input.  `prevStar` records whether the previously consumed character was
`'*'`.  Returns (consumed, rest). -/
def scanBC (prevStar : Bool) : List Char → List Char × List Char
  | [] => ([], [])
  | c :: r =>
    if prevStar && c = '/' then ([c], r)
    else
      let p := scanBC (c = '*') r
      (c :: p.1, p.2)

/-- Scan the body of a quoted literal after its opening quote `q`
(string_literal / character_literal, grammar.js lines 166-199): consume up to
and including the first unescaped closing quote, treating `\c` pairs as
escaped; on unterminated input consume everything.  `esc` records whether the
previously consumed character was an unconsumed backslash.  Returns
(consumed, rest). -/
def scanQuoted (q : Char) (esc : Bool) : List Char → List Char × List Char
  | [] => ([], [])
  | c :: r =>
    if esc then
      let p := scanQuoted q false r
      (c :: p.1, p.2)
    else if c = '\\' then
      let p := scanQuoted q true r
      (c :: p.1, p.2)
    else if c = q then ([c], r)
    else
      let p := scanQuoted q false r
      (c :: p.1, p.2)

/-- Lex one token from a non-empty input `c :: cs`.  Branches follow the
token rules of the source: trivia (extras), comments, string/character
literals, identifiers, numbers; any other character is a one-character
symbol/operator token. -/
def lex1 (c : Char) (cs : List Char) : Token × List Char :=
  if isWsChar c then
    (⟨.ws, c :: cs.takeWhile isWsChar⟩, cs.dropWhile isWsChar)
  else if c = '/' then
    match cs with
    | '/' :: r =>
      (⟨.lineComment, '/' :: '/' :: r.takeWhile (· ≠ '\n')⟩, r.dropWhile (· ≠ '\n'))
    | '*' :: r =>
      let p := scanBC false r
      (⟨.blockComment, '/' :: '*' :: p.1⟩, p.2)
    | _ => (⟨.sym, [c]⟩, cs)
  else if c = '"' then
    let p := scanQuoted '"' false cs
    (⟨.strLit, '"' :: p.1⟩, p.2)
  else if c = '\'' then
    let p := scanQuoted '\'' false cs
    (⟨.charLit, '\'' :: p.1⟩, p.2)
  else if identStartChar c then
    (⟨.ident, c :: cs.takeWhile identContChar⟩, cs.dropWhile identContChar)
  else if c.isDigit then
    (⟨.number, c :: cs.takeWhile numContChar⟩, cs.dropWhile numContChar)
  else if c.val < 128 then
    (⟨.sym, [c]⟩, cs)
  else
    (⟨.errTok, [c]⟩, cs)

/-- Lex a whole input; the fuel is the input length (each step consumes at
least one character). -/
def lexAll : Nat → List Char → List Token
  | _, [] => []
  | 0, _ :: _ => []
  | fuel + 1, c :: cs =>
    let p := lex1 c cs
    p.1 :: lexAll fuel p.2

/-- The token stream of an input text. -/
def lexJava (s : List Char) : List Token :=
  lexAll s.length s

/-- Concatenation of the literal texts of a token sequence, in order. -/
def tokensText (tks : List Token) : List Char :=
  tks.foldr (fun t acc => t.text ++ acc) []

/-! ### The expression grammar (grammar.js lines 229-459)

Logical tokens after lexing: words (identifiers and keywords — which one a
word is, is decided by grammatical position, exactly as tree-sitter's keyword
extraction does), numeric literals (carrying their spelling; decoding literal
values is out of scope), and operator/punctuation symbols. -/

inductive Tok where
  | word (s : String)
  | num (s : String)
  | sym (s : String)
deriving DecidableEq, Repr

/-- Expression trees.  Constructors are the node kinds the claims need:
`binary_expression`, `assignment_expression`, `ternary_expression`,
`parenthesized_expression`, `field_access`, `array_access`, plus
`identifier` and literal leaves. -/
inductive Expr where
  | id (s : String)
  | lit (s : String)
  | binary (left : Expr) (op : String) (right : Expr)
  | assign (left : Expr) (op : String) (right : Expr)
  | ternary (condition consequence alternative : Expr)
  | paren (e : Expr)
  | fieldAcc (object : Expr) (fieldName : String)
  | arrayAcc (array : Expr) (index : Expr)
deriving DecidableEq, Repr

/-- Every string literal of the grammar that is shaped like a word.  Under
tree-sitter keyword extraction (`word: $ => $.identifier`, grammar.js line
92) these spellings lex as keyword tokens, never as plain `identifier`
tokens; positions that accept them do so by naming them explicitly. -/
def keywordLiterals : List String :=
  ["true", "false", "null", "this", "super", "new", "instanceof", "final",
   "class", "interface", "enum", "record", "module", "open", "requires",
   "transitive", "static", "exports", "opens", "uses", "provides", "to",
   "with", "package", "import", "extends", "implements", "permits", "public",
   "protected", "private", "abstract", "strictfp", "default", "synchronized",
   "native", "transient", "volatile", "sealed", "byte", "short", "int",
   "long", "char", "float", "double", "boolean", "void", "switch", "case",
   "when", "assert", "do", "while", "break", "continue", "return", "yield",
   "throw", "try", "catch", "finally", "if", "else", "for", "throws"]

/-- The spellings of `_reserved_identifier` (grammar.js lines 1271-1283):
word-shaped keyword tokens that specific grammar positions re-accept as
ordinary identifiers (each alternative is aliased to `identifier`). -/
def reservedSpellings : List String :=
  ["open", "module", "record", "with", "sealed", "yield"]

/-- A word token usable as the plain `identifier` token: it matches the
identifier regex and is not one of the grammar's keyword literals. -/
def isIdentifierTok (s : String) : Bool :=
  identTokenMatch uXidStart uXidContinue s.data && !(keywordLiterals.contains s)

/-- A word token acceptable where the grammar says `$._reserved_identifier`. -/
def isReservedTok (s : String) : Bool :=
  reservedSpellings.contains s

/-- A word acceptable where the grammar says
`choice($.identifier, $._reserved_identifier)`. -/
def isIdentOrReservedTok (s : String) : Bool :=
  isIdentifierTok s || isReservedTok s

/-- The binary operator table of `binary_expression` (grammar.js lines
268-296): each operator with its precedence level, every alternative
`prec.left`. -/
def binOpPrec : String → Option Nat
  | ">" => some PREC.REL
  | "<" => some PREC.REL
  | ">=" => some PREC.REL
  | "<=" => some PREC.REL
  | "==" => some PREC.EQUALITY
  | "!=" => some PREC.EQUALITY
  | "&&" => some PREC.AND
  | "||" => some PREC.OR
  | "+" => some PREC.ADD
  | "-" => some PREC.ADD
  | "*" => some PREC.MULT
  | "/" => some PREC.MULT
  | "&" => some PREC.BIT_AND
  | "|" => some PREC.BIT_OR
  | "^" => some PREC.BIT_XOR
  | "%" => some PREC.MULT
  | "<<" => some PREC.SHIFT
  | ">>" => some PREC.SHIFT
  | ">>>" => some PREC.SHIFT
  | _ => none

/-- The nineteen binary operators, in source order (grammar.js lines
270-288). -/
def binaryOpStrings : List String :=
  [">", "<", ">=", "<=", "==", "!=", "&&", "||", "+", "-", "*", "/", "&",
   "|", "^", "%", "<<", ">>", ">>>"]

/-- The operators of `assignment_expression` (grammar.js line 264);
the rule is `prec.right(PREC.ASSIGN, ...)`. -/
def assignOps : List String :=
  ["=", "+=", "-=", "*=", "/=", "&=", "|=", "^=", "%=", "<<=", ">>=", ">>>="]

/-- The `left` field of `assignment_expression` (grammar.js lines 258-263) is
`choice($.identifier, $._reserved_identifier, $.field_access,
$.array_access)`; both identifier forms appear as `identifier` nodes. -/
def isAssignTarget : Expr → Bool
  | Expr.id _ => true
  | Expr.fieldAcc _ _ => true
  | Expr.arrayAcc _ _ => true
  | _ => false

/-- Expressions that are `primary_expression` forms (grammar.js lines
354-368), as far as this embedding builds them; the `object` of
`field_access` and the `array` of `array_access` must be primary. -/
def isPrimary : Expr → Bool
  | Expr.id _ => true
  | Expr.lit _ => true
  | Expr.paren _ => true
  | Expr.fieldAcc _ _ => true
  | Expr.arrayAcc _ _ => true
  | _ => false

mutual

/-- Parse one primary expression: literals, identifiers (plain or
reserved-reclassified), `true`/`false`/`null` literal keywords, and
`parenthesized_expression` (grammar.js line 388). -/
def parsePrim : Nat → List Tok → Option (Expr × List Tok)
  | 0, _ => none
  | fuel + 1, ts =>
    match ts with
    | Tok.num s :: r => some (Expr.lit s, r)
    | Tok.word s :: r =>
      if s = "true" || s = "false" || s = "null" then some (Expr.lit s, r)
      else if isIdentOrReservedTok s then some (Expr.id s, r)
      else none
    | Tok.sym s :: r =>
      if s = "(" then
        match parseExpr fuel 0 r with
        | some (e, r2) =>
          match r2 with
          | Tok.sym t :: r3 => if t = ")" then some (Expr.paren e, r3) else none
          | _ => none
        | none => none
      else none
    | [] => none

/-- The precedence-climbing loop: extend `lhs` with every operator whose
level is at least `minp`.  Left-associative operators (all of
`binary_expression`) parse their right operand one level tighter; the
right-associative rules (`assignment_expression` at `PREC.ASSIGN`,
`ternary_expression`'s alternative at `PREC.TERNARY`) parse it at the same
level.  `field_access` and `array_access` bind at `PREC.OBJ_ACCESS` /
`PREC.ARRAY` (= 16), above every operator. -/
def parseClimb : Nat → Nat → Expr → List Tok → Option (Expr × List Tok)
  | 0, _, _, _ => none
  | fuel + 1, minp, lhs, ts =>
    match ts with
    | Tok.sym s :: r =>
      match binOpPrec s with
      | some p =>
        if minp ≤ p then
          match parseExpr fuel (p + 1) r with
          | some (rhs, r2) => parseClimb fuel minp (Expr.binary lhs s rhs) r2
          | none => none
        else some (lhs, ts)
      | none =>
        if assignOps.contains s then
          if minp ≤ PREC.ASSIGN && isAssignTarget lhs then
            match parseExpr fuel PREC.ASSIGN r with
            | some (rhs, r2) => parseClimb fuel minp (Expr.assign lhs s rhs) r2
            | none => none
          else some (lhs, ts)
        else if s = "?" then
          if minp ≤ PREC.TERNARY then
            match parseExpr fuel 0 r with
            | some (c1, r2) =>
              match r2 with
              | Tok.sym t :: r3 =>
                if t = ":" then
                  match parseExpr fuel PREC.TERNARY r3 with
                  | some (alt, r4) => parseClimb fuel minp (Expr.ternary lhs c1 alt) r4
                  | none => none
                else none
              | _ => none
            | none => none
          else some (lhs, ts)
        else if s = "." then
          match r with
          | Tok.word f :: r2 =>
            if isPrimary lhs && isIdentOrReservedTok f && minp ≤ PREC.OBJ_ACCESS then
              parseClimb fuel minp (Expr.fieldAcc lhs f) r2
            else some (lhs, ts)
          | _ => some (lhs, ts)
        else if s = "[" then
          if isPrimary lhs && minp ≤ PREC.ARRAY then
            match parseExpr fuel 0 r with
            | some (ix, r2) =>
              match r2 with
              | Tok.sym t :: r3 =>
                if t = "]" then
                  parseClimb fuel minp (Expr.arrayAcc lhs ix) r3
                else none
              | _ => none
            | none => none
          else some (lhs, ts)
        else some (lhs, ts)
    | _ => some (lhs, ts)

/-- Parse an expression whose every operator has level at least `minp`. -/
def parseExpr : Nat → Nat → List Tok → Option (Expr × List Tok)
  | 0, _, _ => none
  | fuel + 1, minp, ts =>
    match parsePrim fuel ts with
    | some (e, r) => parseClimb fuel minp e r
    | none => none

end

/-- Fuel bounding the recursion depth of any parse of `ts`: every nesting
level of the recursion consumes at least one token of `ts`, and each level
costs at most two fuel. -/
def exprFuel (ts : List Tok) : Nat :=
  2 * ts.length + 4

/-- Parse a complete expression: the whole token list must be consumed. -/
def parseExpression (ts : List Tok) : Option Expr :=
  match parseExpr (exprFuel ts) 0 ts with
  | some (e, []) => some e
  | _ => none

/-- Every `assignment_expression` node in the tree has an allowed `left`. -/
def AssignOk : Expr → Bool
  | Expr.id _ => true
  | Expr.lit _ => true
  | Expr.binary l _ r => AssignOk l && AssignOk r
  | Expr.assign l _ r => isAssignTarget l && AssignOk l && AssignOk r
  | Expr.ternary a b c => AssignOk a && AssignOk b && AssignOk c
  | Expr.paren e => AssignOk e
  | Expr.fieldAcc o _ => AssignOk o
  | Expr.arrayAcc a i => AssignOk a && AssignOk i

/-! ### String literals and interpolation (grammar.js lines 176-223)

`_string_literal` is `'"' repeat(choice(string_fragment, escape_sequence,
string_interpolation)) '"'`; `string_interpolation` (lines 205-209) is
`'\x7b'`-opened: `seq('\\{', $.expression, '}')`.  The content of an
interpolation is lexed with the grammar's lexical layer (trivia dropped,
exactly as `extras` prescribes) and parsed as a full expression.  The
multiline (text block) variant and the multi-character escape shapes are not
needed by any claim and are elided. -/

inductive StrPart where
  | frag (s : List Char)
  | esc (s : List Char)
  | interp (e : Expr)
deriving DecidableEq, Repr

/-- Convert lexical tokens to logical expression tokens, dropping trivia
(the `extras` of grammar.js lines 50-54). -/
def toksOfTokens : List Token → Option (List Tok)
  | [] => some []
  | t :: r =>
    match t.kind with
    | .ws | .lineComment | .blockComment => toksOfTokens r
    | .ident =>
      match toksOfTokens r with
      | some ts => some (Tok.word ⟨t.text⟩ :: ts)
      | none => none
    | .number =>
      match toksOfTokens r with
      | some ts => some (Tok.num ⟨t.text⟩ :: ts)
      | none => none
    | .sym =>
      match toksOfTokens r with
      | some ts => some (Tok.sym ⟨t.text⟩ :: ts)
      | none => none
    | _ => none

/-- Lex and parse a complete expression from raw characters (the content of
an interpolation splice). -/
def parseExprChars (cs : List Char) : Option Expr :=
  match toksOfTokens (lexJava cs) with
  | some ts => parseExpression ts
  | none => none

/-- Parse the body of a double-quoted string literal after its opening
quote: a repetition of fragments (`/[^"\\]+/`), escape sequences, and
interpolation splices, closed by `'"'`.  On `'\\'` followed by `'\x7b'` the
interpolation alternative applies (this is how the conflict with
`escape_sequence` is resolved in a successful parse); the splice content
runs to the matching `'\x7d'` and must parse as a full expression. -/
def parseStrBody : Nat → List Char → Option (List StrPart × List Char)
  | 0, _ => none
  | _ + 1, [] => none
  | fuel + 1, c :: r =>
    if c = '"' then some ([], r)
    else if c = '\\' then
      match r with
      | '\x7b' :: r2 =>
        let content := r2.takeWhile (· ≠ '\x7d')
        match r2.dropWhile (· ≠ '\x7d') with
        | '\x7d' :: r3 =>
          match parseExprChars content with
          | some e =>
            match parseStrBody fuel r3 with
            | some (ps, r4) => some (StrPart.interp e :: ps, r4)
            | none => none
          | none => none
        | _ => none
      | d :: r2 =>
        match parseStrBody fuel r2 with
        | some (ps, r3) => some (StrPart.esc ['\\', d] :: ps, r3)
        | none => none
      | [] => none
    else
      let fragChars := (c :: r).takeWhile (fun d => !(d = '"') && !(d = '\\'))
      match parseStrBody fuel ((c :: r).dropWhile (fun d => !(d = '"') && !(d = '\\'))) with
      | some (ps, r3) => some (StrPart.frag fragChars :: ps, r3)
      | none => none

/-- Parse a double-quoted `string_literal` (grammar.js lines 176-185). -/
def parseStringLit (cs : List Char) : Option (List StrPart × List Char) :=
  match cs with
  | '"' :: r => parseStrBody (r.length + 1) r
  | _ => none

/-- How many interpolation children a parsed string literal has. -/
def interpCount (ps : List StrPart) : Nat :=
  ps.countP (fun p => match p with | StrPart.interp _ => true | _ => false)

/-! ### Supertype alternative sets (grammar.js lines 56-66 and the choices of
the nine supertype rules)

Each list is the direct alternative set of the corresponding supertype rule,
written with the node-kind names tree-sitter gives them (aliases applied;
the anonymous `';'` alternative of `statement` is recorded as ";"). -/

def expressionMembers : List String :=
  ["assignment_expression", "binary_expression", "instanceof_expression",
   "lambda_expression", "ternary_expression", "update_expression",
   "primary_expression", "unary_expression", "cast_expression",
   "switch_expression"]

def declarationMembers : List String :=
  ["module_declaration", "package_declaration", "import_declaration",
   "class_declaration", "record_declaration", "interface_declaration",
   "annotation_type_declaration", "enum_declaration"]

def statementMembers : List String :=
  ["declaration", "expression_statement", "labeled_statement",
   "if_statement", "while_statement", "for_statement",
   "enhanced_for_statement", "block", ";", "assert_statement",
   "do_statement", "break_statement", "continue_statement",
   "return_statement", "yield_statement", "switch_expression",
   "synchronized_statement", "local_variable_declaration",
   "throw_statement", "try_statement", "try_with_resources_statement"]

def primaryExpressionMembers : List String :=
  ["_literal", "class_literal", "this", "identifier",
   "_reserved_identifier", "parenthesized_expression",
   "object_creation_expression", "field_access", "array_access",
   "method_invocation", "method_reference", "array_creation_expression",
   "template_expression"]

def literalMembers : List String :=
  ["decimal_integer_literal", "hex_integer_literal", "octal_integer_literal",
   "binary_integer_literal", "decimal_floating_point_literal",
   "hex_floating_point_literal", "true", "false", "character_literal",
   "string_literal", "null_literal"]

def typeMembers : List String :=
  ["_unannotated_type", "annotated_type"]

def simpleTypeMembers : List String :=
  ["void_type", "integral_type", "floating_point_type", "boolean_type",
   "type_identifier", "scoped_type_identifier", "generic_type"]

def unannotatedTypeMembers : List String :=
  ["_simple_type", "array_type"]

def moduleDirectiveMembers : List String :=
  ["requires_module_directive", "exports_module_directive",
   "opens_module_directive", "uses_module_directive",
   "provides_module_directive"]

/-- The nine supertype groupings (grammar.js lines 56-66), each with its
direct alternative set. -/
def supertypeSets : List (String × List String) :=
  [("expression", expressionMembers),
   ("declaration", declarationMembers),
   ("statement", statementMembers),
   ("primary_expression", primaryExpressionMembers),
   ("_literal", literalMembers),
   ("_type", typeMembers),
   ("_simple_type", simpleTypeMembers),
   ("_unannotated_type", unannotatedTypeMembers),
   ("module_directive", moduleDirectiveMembers)]

/-- Two alternative sets share no node kind. -/
def disjointMembers (xs ys : List String) : Bool :=
  xs.all (fun k => !(ys.contains k))

/-- Every two distinct supertypes of the list have disjoint alternative
sets. -/
def pairwiseDisjoint : List (String × List String) → Bool
  | [] => true
  | x :: rest => rest.all (fun y => disjointMembers x.2 y.2) && pairwiseDisjoint rest

/-- The same check ignoring one exempted node kind. -/
def pairwiseDisjointExcept (exc : String) (l : List (String × List String)) : Bool :=
  pairwiseDisjoint (l.map (fun p => (p.1, p.2.filter (fun k => !(k = exc)))))

/-! ### Top-level children of `program` (grammar.js lines 95-100)

`program: repeat($._toplevel_statement)` with `_toplevel_statement:
choice($.statement, $.method_declaration)`.  Both `_toplevel_statement` and
the supertype `statement` are hidden in the tree, so the node kinds that can
appear as direct children of `program` are the alternatives of `statement`
together with `method_declaration`. -/

def toplevelChildKinds : List String :=
  (statementMembers.filter (fun k => !(k = "declaration"))) ++
    declarationMembers ++ ["method_declaration"]

/-! ### Declaration fragment for reserved-identifier reclassification
(grammar.js lines 890-906, 1022-1030, 1105-1129, 1143-1151, 1215-1231,
1252-1257, 1271-1283)

Executable recognizers for `local_variable_declaration` and
`record_declaration`, restricted to the alternatives the claims exercise:
simple types are primitive types or a plain `type_identifier` (scoped and
generic types elided), declarator initializers are expressions (array
initializers elided), record declarations carry no type parameters or
`implements` clause and an empty `class_body` (their members elided).  The
parts that are present follow the source rules alternative by
alternative. -/

inductive TypeN where
  | integral (s : String)
  | floating (s : String)
  | boolT
  | voidT
  | typeId (s : String)
  | arrayT (elem : TypeN) (dims : Nat)
deriving DecidableEq, Repr

/-- The modifier keywords of `modifiers` (grammar.js lines 890-906);
annotations elided. -/
def modifierKeywords : List String :=
  ["public", "protected", "private", "abstract", "static", "final",
   "strictfp", "default", "synchronized", "native", "transient", "volatile",
   "sealed", "non-sealed"]

/-- `repeat` of modifier keywords — `optional($.modifiers)` at use sites. -/
def parseMods : Nat → List Tok → List String × List Tok
  | 0, ts => ([], ts)
  | fuel + 1, ts =>
    match ts with
    | Tok.word s :: r =>
      if modifierKeywords.contains s then
        let p := parseMods fuel r
        (s :: p.1, p.2)
      else ([], ts)
    | _ => ([], ts)

/-- The `integral_type` keywords (grammar.js lines 1182-1188). -/
def integralTypes : List String :=
  ["byte", "short", "int", "long", "char"]

/-- The `floating_point_type` keywords (grammar.js lines 1190-1193). -/
def floatingTypes : List String :=
  ["float", "double"]

/-- `_simple_type` (grammar.js lines 1143-1151): a primitive type keyword or
a plain identifier aliased to `type_identifier`.  Note the identifier
alternative is `alias($.identifier, ...)` — a *plain* identifier only, not a
`_reserved_identifier`, so the six reserved spellings cannot name a type. -/
def parseSimpleType : List Tok → Option (TypeN × List Tok)
  | Tok.word s :: r =>
    if integralTypes.contains s then some (TypeN.integral s, r)
    else if floatingTypes.contains s then some (TypeN.floating s, r)
    else if s = "boolean" then some (TypeN.boolT, r)
    else if s = "void" then some (TypeN.voidT, r)
    else if isIdentifierTok s then some (TypeN.typeId s, r)
    else none
  | _ => none

/-- `dimensions` (grammar.js lines 478-480): repeated `[` `]` pairs
(dimension annotations elided). -/
def parseDims : Nat → List Tok → Nat × List Tok
  | 0, ts => (0, ts)
  | fuel + 1, ts =>
    match ts with
    | Tok.sym "[" :: Tok.sym "]" :: r =>
      let p := parseDims fuel r
      (p.1 + 1, p.2)
    | _ => (0, ts)

/-- `_unannotated_type` (grammar.js lines 1138-1141): a simple type or an
array type. -/
def parseUnannotatedType (ts : List Tok) : Option (TypeN × List Tok) :=
  match parseSimpleType ts with
  | some (t, r) =>
    let p := parseDims r.length r
    if p.1 = 0 then some (t, r) else some (TypeN.arrayT t p.1, p.2)
  | none => none

/-- A `variable_declarator` (grammar.js lines 1109-1117): a name — plain
identifier, `_reserved_identifier`, or `_` — optional dimensions, and an
optional `=`-initializer. -/
structure Declarator where
  name : String
  dims : Nat
  value : Option Expr
deriving DecidableEq, Repr

def parseDeclarator (ts : List Tok) : Option (Declarator × List Tok) :=
  match ts with
  | Tok.word s :: r =>
    if isIdentOrReservedTok s then
      let p := parseDims r.length r
      match p.2 with
      | Tok.sym "=" :: r2 =>
        match parseExpr (exprFuel r2) 0 r2 with
        | some (e, r3) => some (⟨s, p.1, some e⟩, r3)
        | none => none
      | _ => some (⟨s, p.1, none⟩, p.2)
    else none
  | _ => none

/-- `_variable_declarator_list` (grammar.js lines 1105-1107): comma-separated
declarators. -/
def parseDeclList : Nat → List Tok → Option (List Declarator × List Tok)
  | 0, _ => none
  | fuel + 1, ts =>
    match parseDeclarator ts with
    | some (d, Tok.sym "," :: r) =>
      match parseDeclList fuel r with
      | some (ds, r2) => some (d :: ds, r2)
      | none => none
    | some (d, r) => some ([d], r)
    | none => none

/-- A parsed `local_variable_declaration` (grammar.js lines 1252-1257). -/
structure LocalVarDecl where
  mods : List String
  type : TypeN
  declarators : List Declarator
deriving DecidableEq, Repr

/-- Parse a complete `local_variable_declaration`: optional modifiers, an
unannotated type, a declarator list, and the closing `;` consuming the whole
input. -/
def parseLocalVarDecl (ts : List Tok) : Option LocalVarDecl :=
  let m := parseMods ts.length ts
  match parseUnannotatedType m.2 with
  | some (ty, r1) =>
    match parseDeclList r1.length r1 with
    | some (ds, [Tok.sym ";"]) => some ⟨m.1, ty, ds⟩
    | _ => none
  | none => none

/-- A record component, i.e. a `formal_parameter` (grammar.js lines
1227-1231): optional modifiers, a type and a name. -/
structure Param where
  type : TypeN
  name : String
deriving DecidableEq, Repr

def parseParam (ts : List Tok) : Option (Param × List Tok) :=
  let m := parseMods ts.length ts
  match parseUnannotatedType m.2 with
  | some (ty, Tok.word s :: r1) =>
    if isIdentOrReservedTok s then some (⟨ty, s⟩, r1) else none
  | _ => none

def parseParamSeq : Nat → List Tok → Option (List Param × List Tok)
  | 0, _ => none
  | fuel + 1, ts =>
    match parseParam ts with
    | some (p, Tok.sym "," :: r) =>
      match parseParamSeq fuel r with
      | some (ps, r2) => some (p :: ps, r2)
      | none => none
    | some (p, r) => some ([p], r)
    | none => none

/-- `formal_parameters` (grammar.js lines 1215-1225): a parenthesized,
comma-separated parameter list (receiver and spread parameters elided). -/
def parseFormalParams (ts : List Tok) : Option (List Param × List Tok) :=
  match ts with
  | Tok.sym "(" :: Tok.sym ")" :: r => some ([], r)
  | Tok.sym "(" :: r =>
    match parseParamSeq r.length r with
    | some (ps, Tok.sym ")" :: r2) => some (ps, r2)
    | _ => none
  | _ => none

/-- A parsed `record_declaration` (grammar.js lines 1022-1030). -/
structure RecordDecl where
  mods : List String
  name : String
  params : List Param
deriving DecidableEq, Repr

/-- Parse a complete `record_declaration`: optional modifiers, the `record`
keyword, a *plain* identifier name, the component list, and an empty body
consuming the whole input. -/
def parseRecordDecl (ts : List Tok) : Option RecordDecl :=
  let m := parseMods ts.length ts
  match m.2 with
  | Tok.word kw :: Tok.word n :: r1 =>
    if kw = "record" && isIdentifierTok n then
      match parseFormalParams r1 with
      | some (ps, [Tok.sym "\x7b", Tok.sym "\x7d"]) => some ⟨m.1, n, ps⟩
      | _ => none
    else none
  | _ => none

/-! ### The switch block (grammar.js lines 482-517)

`switch_block: seq('\x7b', choice(repeat($.switch_block_statement_group),
repeat($.switch_rule)), '\x7d')` — a block is either entirely colon-labeled
statement groups or entirely arrow rules.  The embedding tries the
all-groups alternative and then the all-rules alternative, exactly the two
alternatives of the source `choice`.  `switch_label` supports `case` with
comma-separated expressions and `default` (patterns and guards elided);
statements inside the block support the forms `switch_rule` names plus the
empty statement. -/

inductive SwitchLabel where
  | caseL (es : List Expr)
  | defaultL
deriving DecidableEq, Repr

inductive Stmt where
  | exprStmt (e : Expr)
  | blockS (ss : List Stmt)
  | throwS (e : Expr)
  | emptyS

/-- One switch block: either statement groups (each: labels, statements) or
arrow rules (each: label, body). -/
inductive SwitchBlockBody where
  | groups (gs : List (List SwitchLabel × List Stmt))
  | rules (rs : List (SwitchLabel × Stmt))

/-- `commaSep1($.expression)` in a `case` label (grammar.js lines 508-517). -/
def parseCaseExprs : Nat → List Tok → Option (List Expr × List Tok)
  | 0, _ => none
  | fuel + 1, ts =>
    match parseExpr (exprFuel ts) 0 ts with
    | some (e, Tok.sym "," :: r) =>
      match parseCaseExprs fuel r with
      | some (es, r2) => some (e :: es, r2)
      | none => none
    | some (e, r) => some ([e], r)
    | none => none

/-- `switch_label` (grammar.js lines 508-517). -/
def parseSwitchLabel (ts : List Tok) : Option (SwitchLabel × List Tok) :=
  match ts with
  | Tok.word "case" :: r =>
    match parseCaseExprs r.length r with
    | some (es, r2) => some (SwitchLabel.caseL es, r2)
    | none => none
  | Tok.word "default" :: r => some (SwitchLabel.defaultL, r)
  | _ => none

mutual

/-- A statement, restricted to the forms needed inside switch blocks:
`;`, `block`, `throw_statement`, `expression_statement` (grammar.js lines
540-612). -/
def parseStatement : Nat → List Tok → Option (Stmt × List Tok)
  | 0, _ => none
  | fuel + 1, ts =>
    match ts with
    | Tok.sym ";" :: r => some (Stmt.emptyS, r)
    | Tok.sym "\x7b" :: r =>
      match parseStmtSeq fuel r with
      | some (ss, Tok.sym "\x7d" :: r2) => some (Stmt.blockS ss, r2)
      | _ => none
    | Tok.word "throw" :: r =>
      match parseExpr (exprFuel r) 0 r with
      | some (e, Tok.sym ";" :: r2) => some (Stmt.throwS e, r2)
      | _ => none
    | _ =>
      match parseExpr (exprFuel ts) 0 ts with
      | some (e, Tok.sym ";" :: r2) => some (Stmt.exprStmt e, r2)
      | _ => none

/-- `repeat($.statement)`: parse statements greedily until one fails to
start. -/
def parseStmtSeq : Nat → List Tok → Option (List Stmt × List Tok)
  | 0, _ => none
  | fuel + 1, ts =>
    match parseStatement fuel ts with
    | none => some ([], ts)
    | some (s, r) =>
      match parseStmtSeq fuel r with
      | some (ss, r2) => some (s :: ss, r2)
      | none => none

end

/-- One `seq($.switch_label, ':')` unit of a statement group. -/
def parseLabelColon (ts : List Tok) : Option (SwitchLabel × List Tok) :=
  match parseSwitchLabel ts with
  | some (l, Tok.sym ":" :: r) => some (l, r)
  | _ => none

/-- Greedy repetition of colon-terminated labels. -/
def parseLabelColons : Nat → List Tok → List SwitchLabel × List Tok
  | 0, ts => ([], ts)
  | fuel + 1, ts =>
    match parseLabelColon ts with
    | none => ([], ts)
    | some (l, r) =>
      let p := parseLabelColons fuel r
      (l :: p.1, p.2)

/-- `switch_block_statement_group` (grammar.js lines 497-500):
`repeat1(seq($.switch_label, ':'))` then `repeat($.statement)`. -/
def parseGroup (fuel : Nat) (ts : List Tok) : Option ((List SwitchLabel × List Stmt) × List Tok) :=
  match parseLabelColons fuel ts with
  | ([], _) => none
  | (l :: ls, r) =>
    match parseStmtSeq fuel r with
    | some (ss, r2) => some (((l :: ls, ss), r2))
    | none => none

/-- `repeat($.switch_block_statement_group)`. -/
def parseGroups : Nat → List Tok → Option (List (List SwitchLabel × List Stmt) × List Tok)
  | 0, _ => none
  | fuel + 1, ts =>
    match parseGroup fuel ts with
    | none => some ([], ts)
    | some (g, r) =>
      match parseGroups fuel r with
      | some (gs, r2) => some (g :: gs, r2)
      | none => none

/-- `switch_rule` (grammar.js lines 502-506): a label, `->`, then an
expression statement, throw statement, or block. -/
def parseRule (fuel : Nat) (ts : List Tok) : Option ((SwitchLabel × Stmt) × List Tok) :=
  match parseSwitchLabel ts with
  | some (l, Tok.sym "->" :: r) =>
    match parseStatement fuel r with
    | some (Stmt.exprStmt e, r2) => some ((l, Stmt.exprStmt e), r2)
    | some (Stmt.throwS e, r2) => some ((l, Stmt.throwS e), r2)
    | some (Stmt.blockS ss, r2) => some ((l, Stmt.blockS ss), r2)
    | _ => none
  | _ => none

/-- `repeat($.switch_rule)`. -/
def parseRules : Nat → List Tok → Option (List (SwitchLabel × Stmt) × List Tok)
  | 0, _ => none
  | fuel + 1, ts =>
    match parseRule fuel ts with
    | none => some ([], ts)
    | some (rl, r) =>
      match parseRules fuel r with
      | some (rs, r2) => some (rl :: rs, r2)
      | none => none

/-- `switch_block` (grammar.js lines 488-495): braces around
`choice(repeat($.switch_block_statement_group), repeat($.switch_rule))`,
consuming the whole input.  The first alternative is tried first; an input
neither alternative derives is a syntax error (`none`). -/
def parseSwitchBlock (ts : List Tok) : Option SwitchBlockBody :=
  match ts with
  | Tok.sym "\x7b" :: r =>
    match parseGroups (r.length + 4) r with
    | some (gs, [Tok.sym "\x7d"]) => some (SwitchBlockBody.groups gs)
    | _ =>
      match parseRules (r.length + 4) r with
      | some (rs, [Tok.sym "\x7d"]) => some (SwitchBlockBody.rules rs)
      | _ => none
  | _ => none

/-! ## Theorems -/

theorem scanBC_append (l : List Char) : ∀ b, (scanBC b l).1 ++ (scanBC b l).2 = l := by
  induction l with
  | nil => intro b; rfl
  | cons c r ih =>
    intro b
    simp only [scanBC]
    split
    · rfl
    · simp [ih]

theorem scanQuoted_append (q : Char) (l : List Char) :
    ∀ esc, (scanQuoted q esc l).1 ++ (scanQuoted q esc l).2 = l := by
  induction l with
  | nil => intro e; rfl
  | cons c r ih =>
    intro e
    simp only [scanQuoted]
    split
    · simp [ih]
    · split
      · simp [ih]
      · split
        · rfl
        · simp [ih]

theorem lex1_text_append (c : Char) (cs : List Char) :
    (lex1 c cs).1.text ++ (lex1 c cs).2 = c :: cs := by
  unfold lex1
  repeat' split
  all_goals simp_all [List.takeWhile_append_dropWhile, scanBC_append, scanQuoted_append]

theorem lex1_text_ne (c : Char) (cs : List Char) : (lex1 c cs).1.text ≠ [] := by
  unfold lex1
  repeat' split
  all_goals simp

theorem lex1_rest_length (c : Char) (cs : List Char) :
    (lex1 c cs).2.length ≤ cs.length := by
  have h := lex1_text_append c cs
  have hne := lex1_text_ne c cs
  have hl : (lex1 c cs).1.text.length + (lex1 c cs).2.length = cs.length + 1 := by
    simpa using congrArg List.length h
  have hpos : 0 < (lex1 c cs).1.text.length := List.length_pos.mpr hne
  omega

theorem tokensText_cons (t : Token) (ts : List Token) :
    tokensText (t :: ts) = t.text ++ tokensText ts := rfl

theorem lexAll_text : ∀ (fuel : Nat) (cs : List Char), cs.length ≤ fuel →
    tokensText (lexAll fuel cs) = cs := by
  intro fuel
  induction fuel with
  | zero =>
    intro cs h
    cases cs with
    | nil => rfl
    | cons c r => simp at h
  | succ n ih =>
    intro cs h
    cases cs with
    | nil => rfl
    | cons c r =>
      have hr : (lex1 c r).2.length ≤ n := by
        have hrn : r.length ≤ n := by simp at h; omega
        exact le_trans (lex1_rest_length c r) hrn
      show tokensText ((lex1 c r).1 :: lexAll n (lex1 c r).2) = c :: r
      rw [tokensText_cons, ih _ hr, lex1_text_append]


/-- Invariant of the expression parser: every expression any of the three
parsing modes returns satisfies `AssignOk` — every `assignment_expression`
node it contains was built only after the `isAssignTarget` check that
embeds the restricted `left` choice of the source rule. -/
theorem parse_assignOk (fuel : Nat) :
    (∀ ts e r, parsePrim fuel ts = some (e, r) → AssignOk e = true) ∧
    (∀ minp lhs ts e r, AssignOk lhs = true →
      parseClimb fuel minp lhs ts = some (e, r) → AssignOk e = true) ∧
    (∀ minp ts e r, parseExpr fuel minp ts = some (e, r) → AssignOk e = true) := by
  induction fuel with
  | zero =>
    refine ⟨?_, ?_, ?_⟩ <;> intros <;> simp_all [parsePrim, parseClimb, parseExpr]
  | succ n ih =>
    obtain ⟨ihp, ihc, ihe⟩ := ih
    refine ⟨?_, ?_, ?_⟩
    · intro ts e r h
      simp only [parsePrim] at h
      split at h
      · simp at h
        obtain ⟨he, -⟩ := h
        subst he; rfl
      · split at h
        · simp at h
          obtain ⟨he, -⟩ := h
          subst he; rfl
        · split at h
          · simp at h
            obtain ⟨he, -⟩ := h
            subst he; rfl
          · exact absurd h (by simp)
      · split at h
        · split at h
          · split at h
            · split at h
              · simp at h
                obtain ⟨he, -⟩ := h
                subst he
                simp only [AssignOk]
                exact ihe _ _ _ _ (by assumption)
              · exact absurd h (by simp)
            · exact absurd h (by simp)
          · exact absurd h (by simp)
        · exact absurd h (by simp)
      · exact absurd h (by simp)
    · intro minp lhs ts e r hok h
      simp only [parseClimb] at h
      split at h
      · -- head token is a symbol
        split at h
        · -- a binary operator of the table
          split at h
          · split at h
            · refine ihc _ _ _ _ _ ?_ h
              simp only [AssignOk, Bool.and_eq_true]
              exact ⟨hok, ihe _ _ _ _ (by assumption)⟩
            · exact absurd h (by simp)
          · simp at h
            obtain ⟨he, -⟩ := h
            subst he; exact hok
        · -- not a binary operator
          split at h
          · -- an assignment operator
            split at h
            · have hc : (decide (minp ≤ PREC.ASSIGN) && isAssignTarget lhs) = true := by
                assumption
              rw [Bool.and_eq_true] at hc
              split at h
              · refine ihc _ _ _ _ _ ?_ h
                simp only [AssignOk, Bool.and_eq_true]
                exact ⟨⟨hc.2, hok⟩, ihe _ _ _ _ (by assumption)⟩
              · exact absurd h (by simp)
            · simp at h
              obtain ⟨he, -⟩ := h
              subst he; exact hok
          · split at h
            · -- the ternary operator
              split at h
              · split at h
                · split at h
                  · split at h
                    · split at h
                      · refine ihc _ _ _ _ _ ?_ h
                        simp only [AssignOk, Bool.and_eq_true]
                        exact ⟨⟨hok, ihe _ _ _ _ (by assumption)⟩,
                          ihe _ _ _ _ (by assumption)⟩
                      · exact absurd h (by simp)
                    · exact absurd h (by simp)
                  · exact absurd h (by simp)
                · exact absurd h (by simp)
              · simp at h
                obtain ⟨he, -⟩ := h
                subst he; exact hok
            · split at h
              · -- field access
                split at h
                · split at h
                  · refine ihc _ _ _ _ _ ?_ h
                    simp only [AssignOk]
                    exact hok
                  · simp at h
                    obtain ⟨he, -⟩ := h
                    subst he; exact hok
                · simp at h
                  obtain ⟨he, -⟩ := h
                  subst he; exact hok
              · split at h
                · -- array access
                  split at h
                  · split at h
                    · split at h
                      · split at h
                        · refine ihc _ _ _ _ _ ?_ h
                          simp only [AssignOk, Bool.and_eq_true]
                          exact ⟨hok, ihe _ _ _ _ (by assumption)⟩
                        · exact absurd h (by simp)
                      · exact absurd h (by simp)
                    · exact absurd h (by simp)
                  · simp at h
                    obtain ⟨he, -⟩ := h
                    subst he; exact hok
                · simp at h
                  obtain ⟨he, -⟩ := h
                  subst he; exact hok
      · -- head token absent or not a symbol
        simp at h
        obtain ⟨he, -⟩ := h
        subst he; exact hok
    · intro minp ts e r h
      simp only [parseExpr] at h
      split at h
      · exact ihc _ _ _ _ _ (ihp _ _ _ (by assumption)) h
      · exact absurd h (by simp)

/-- Helper for claim C7: the source continue-class is the XID-continue /
underscore / dollar class with U+00A2 additionally admitted. -/
theorem identContClass_comm (xidCont : Char → Bool) (d : Char) :
    identContClass xidCont d = (xidCont d || d = '_' || d = '$' || d = '¢') := by
  by_cases h1 : xidCont d <;> by_cases h2 : d = '¢' <;> by_cases h3 : d = '_' <;>
    by_cases h4 : d = '$' <;> simp [identContClass, h1, h2, h3, h4]

/-- C1: the expression grammar assigns exactly the precedence levels of the
spec's table — comment 0, assignment 1, declaration and element-value 2,
ternary 3, logical-or 4, logical-and 5, bitwise-or 6, bitwise-xor 7,
bitwise-and 8, equality 9, relational/generic 10, shift 11, additive 12,
multiplicative 13, cast and object-creation 14, unary 15,
array-access/member-access/parenthesized 16, class-literal 17 — and for the
input `a + b * c` the multiplicative expression `b * c` is the right operand
of the `+` node. -/
theorem precedence_table_and_example :
    PREC.COMMENT = 0 ∧ PREC.ASSIGN = 1 ∧ PREC.DECL = 2 ∧ PREC.ELEMENT_VAL = 2 ∧
    PREC.TERNARY = 3 ∧ PREC.OR = 4 ∧ PREC.AND = 5 ∧ PREC.BIT_OR = 6 ∧
    PREC.BIT_XOR = 7 ∧ PREC.BIT_AND = 8 ∧ PREC.EQUALITY = 9 ∧
    PREC.REL = 10 ∧ PREC.GENERIC = 10 ∧ PREC.SHIFT = 11 ∧ PREC.ADD = 12 ∧
    PREC.MULT = 13 ∧ PREC.CAST = 14 ∧ PREC.OBJ_INST = 14 ∧ PREC.UNARY = 15 ∧
    PREC.ARRAY = 16 ∧ PREC.OBJ_ACCESS = 16 ∧ PREC.PARENS = 16 ∧
    PREC.CLASS_LITERAL = 17 ∧
    parseExpression
      [Tok.word "a", Tok.sym "+", Tok.word "b", Tok.sym "*", Tok.word "c"] =
      some (Expr.binary (Expr.id "a") "+"
        (Expr.binary (Expr.id "b") "*" (Expr.id "c"))) := by
  decide

/-- C2: concatenating the literal text of every token the lexical layer
produces for an input — trivia tokens (whitespace, line comments, block
comments) included — in order reproduces the input exactly, for every
input.  The token stream is exactly the leaf sequence of the tree in tree
order, since `extras` attach trivia between tokens without altering the
tree shape. -/
theorem lex_round_trip (cs : List Char) : tokensText (lexJava cs) = cs :=
  lexAll_text cs.length cs le_rfl

/-- C3: every binary operator of the table parses left-associatively
(`a op b op c` = `(a op b) op c`), every assignment operator parses
right-associatively (`x op y op z` = `x op (y op z)`), and the ternary
conditional nests right-associatively in its alternative branch
(`a ? b : c ? d : e` = `a ? b : (c ? d : e)`). -/
theorem operator_associativity :
    (∀ op ∈ binaryOpStrings,
      parseExpression
        [Tok.word "a", Tok.sym op, Tok.word "b", Tok.sym op, Tok.word "c"] =
        some (Expr.binary (Expr.binary (Expr.id "a") op (Expr.id "b")) op
          (Expr.id "c"))) ∧
    (∀ op ∈ assignOps,
      parseExpression
        [Tok.word "x", Tok.sym op, Tok.word "y", Tok.sym op, Tok.word "z"] =
        some (Expr.assign (Expr.id "x") op
          (Expr.assign (Expr.id "y") op (Expr.id "z")))) ∧
    parseExpression
      [Tok.word "a", Tok.sym "?", Tok.word "b", Tok.sym ":", Tok.word "c",
       Tok.sym "?", Tok.word "d", Tok.sym ":", Tok.word "e"] =
      some (Expr.ternary (Expr.id "a") (Expr.id "b")
        (Expr.ternary (Expr.id "c") (Expr.id "d") (Expr.id "e"))) := by
  decide

/-- Witness for C3 at the spec's own examples `a - b - c` and
`x = y = z`. -/
theorem operator_associativity_witness :
    parseExpression
      [Tok.word "a", Tok.sym "-", Tok.word "b", Tok.sym "-", Tok.word "c"] =
      some (Expr.binary (Expr.binary (Expr.id "a") "-" (Expr.id "b")) "-"
        (Expr.id "c")) ∧
    parseExpression
      [Tok.word "x", Tok.sym "=", Tok.word "y", Tok.sym "=", Tok.word "z"] =
      some (Expr.assign (Expr.id "x") "="
        (Expr.assign (Expr.id "y") "=" (Expr.id "z"))) :=
  ⟨operator_associativity.1 "-" (by decide),
   operator_associativity.2.1 "=" (by decide)⟩

/-- C4 counterexample: the nine supertype alternative sets are *not*
pairwise disjoint — the node kind `switch_expression` is a direct member of
both the `expression` and the `statement` alternative set (grammar.js lines
239 and 556, the latter commented "switch statements and expressions are
identical"). -/
theorem supertype_overlap_counterexample :
    pairwiseDisjoint supertypeSets = false ∧
    expressionMembers.contains "switch_expression" = true ∧
    statementMembers.contains "switch_expression" = true := by
  decide

/-- C4 amended: apart from `switch_expression` (deliberately shared between
`expression` and `statement`), no node kind is a direct member of two
distinct supertypes' alternative sets. -/
theorem supertype_disjoint_except_switch :
    pairwiseDisjointExcept "switch_expression" supertypeSets = true := by
  decide

/-- C5: exactly the spellings `open`, `module`, `record`, `with`, `sealed`,
`yield` are reserved identifiers; each of the six works as a local variable
name in `int s = 5;` (parsing as an ordinary identifier declarator name),
while a true keyword such as `class` does not; and the token sequence of
`record Point(int x, int y) { }` parses as a `record_declaration` (and not
as a local variable declaration, since the reserved spellings cannot name a
type). -/
theorem reserved_identifier_reclassification :
    reservedSpellings = ["open", "module", "record", "with", "sealed", "yield"] ∧
    (∀ s ∈ reservedSpellings,
      parseLocalVarDecl
        [Tok.word "int", Tok.word s, Tok.sym "=", Tok.num "5", Tok.sym ";"] =
        some ⟨[], TypeN.integral "int", [⟨s, 0, some (Expr.lit "5")⟩]⟩) ∧
    parseLocalVarDecl
      [Tok.word "int", Tok.word "class", Tok.sym "=", Tok.num "5", Tok.sym ";"] =
      none ∧
    parseRecordDecl
      [Tok.word "record", Tok.word "Point", Tok.sym "(", Tok.word "int",
       Tok.word "x", Tok.sym ",", Tok.word "int", Tok.word "y", Tok.sym ")",
       Tok.sym "\x7b", Tok.sym "\x7d"] =
      some ⟨[], "Point", [⟨TypeN.integral "int", "x"⟩, ⟨TypeN.integral "int", "y"⟩]⟩ ∧
    parseLocalVarDecl
      [Tok.word "record", Tok.word "Point", Tok.sym "(", Tok.word "int",
       Tok.word "x", Tok.sym ",", Tok.word "int", Tok.word "y", Tok.sym ")",
       Tok.sym "\x7b", Tok.sym "\x7d"] = none := by
  decide

/-- Witness for C5 at the spec's own example: `int record = 5;` parses with
`record` as the declarator name. -/
theorem reserved_identifier_reclassification_witness :
    parseLocalVarDecl
      [Tok.word "int", Tok.word "record", Tok.sym "=", Tok.num "5", Tok.sym ";"] =
      some ⟨[], TypeN.integral "int", [⟨"record", 0, some (Expr.lit "5")⟩]⟩ :=
  reserved_identifier_reclassification.2.1 "record" (by decide)

/-- C6: a switch block is either entirely colon-labeled statement groups or
entirely arrow rules.  The mixed block
`{ case 1 : case 2 -> { } }` is rejected as a syntax error, while the
all-colon block `{ case 1 : case 2 : }` and the all-arrow block
`{ case 1 -> { } case 2 -> { } }` both parse, each with a single
homogeneous form. -/
theorem switch_block_not_mixed :
    parseSwitchBlock
      [Tok.sym "\x7b", Tok.word "case", Tok.num "1", Tok.sym ":",
       Tok.word "case", Tok.num "2", Tok.sym "->", Tok.sym "\x7b",
       Tok.sym "\x7d", Tok.sym "\x7d"] = none ∧
    parseSwitchBlock
      [Tok.sym "\x7b", Tok.word "case", Tok.num "1", Tok.sym ":",
       Tok.word "case", Tok.num "2", Tok.sym ":", Tok.sym "\x7d"] =
      some (SwitchBlockBody.groups
        [([SwitchLabel.caseL [Expr.lit "1"], SwitchLabel.caseL [Expr.lit "2"]], [])]) ∧
    parseSwitchBlock
      [Tok.sym "\x7b", Tok.word "case", Tok.num "1", Tok.sym "->",
       Tok.sym "\x7b", Tok.sym "\x7d", Tok.word "case", Tok.num "2",
       Tok.sym "->", Tok.sym "\x7b", Tok.sym "\x7d", Tok.sym "\x7d"] =
      some (SwitchBlockBody.rules
        [(SwitchLabel.caseL [Expr.lit "1"], Stmt.blockS []),
         (SwitchLabel.caseL [Expr.lit "2"], Stmt.blockS [])]) :=
  ⟨rfl, rfl, rfl⟩

/-- C7 counterexample: the claim's "if and only if" characterization of the
identifier token fails.  The two-character string `a¢` is matched by the
source identifier token (its continue class contains the literal U+00A2)
but not by the spec's characterization, since `'a'` is XID-start and `'¢'`
is neither XID-continue nor `_` nor `$`. -/
theorem identifier_cent_counterexample :
    identTokenMatch uXidStart uXidContinue ['a', '¢'] = true ∧
    identSpecMatch uXidStart uXidContinue ['a', '¢'] = false ∧
    uXidStart 'a' = true ∧ uXidContinue '¢' = false := by
  decide

/-- C7 amended: a string is matched by the identifier token if and only if
its first character is XID-start, `_`, or `$`, and every subsequent
character is XID-continue, `_`, `$`, or the additionally admitted character
U+00A2 — for any interpretation of the XID character classes. -/
theorem identifier_charset_amended (xidStart xidCont : Char → Bool) (s : List Char) :
    identTokenMatch xidStart xidCont s = identSpecAmendedMatch xidStart xidCont s := by
  cases s with
  | nil => rfl
  | cons c rest =>
    simp only [identTokenMatch, identSpecAmendedMatch, identStartClass]
    congr 1
    exact congrArg rest.all (funext fun d => identContClass_comm xidCont d)

/-- C8: the double-quoted string literal `"sum=\{1+2}"` parses as a string
literal whose parts are a fragment `sum=` and exactly one
`string_interpolation` child, whose sub-expression is the binary addition
of the literals `1` and `2`. -/
theorem string_interpolation_example :
    parseStringLit
      ['"', 's', 'u', 'm', '=', '\\', '\x7b', '1', '+', '2', '\x7d', '"'] =
      some ([StrPart.frag ['s', 'u', 'm', '='],
             StrPart.interp (Expr.binary (Expr.lit "1") "+" (Expr.lit "2"))], []) ∧
    interpCount
      [StrPart.frag ['s', 'u', 'm', '='],
       StrPart.interp (Expr.binary (Expr.lit "1") "+" (Expr.lit "2"))] = 1 := by
  decide

/-- C9 counterexample: `method_declaration` can appear as a direct top-level
child of `program` (grammar.js lines 95-100) but is a member of neither the
`statement` nor the `declaration` supertype alternative set — so the claim
that every top-level child is a statement or a declaration fails. -/
theorem toplevel_method_counterexample :
    toplevelChildKinds.contains "method_declaration" = true ∧
    statementMembers.contains "method_declaration" = false ∧
    declarationMembers.contains "method_declaration" = false := by
  decide

/-- C9 amended: every node kind that can appear as a direct child of
`program` is a statement, a declaration, or a `method_declaration`. -/
theorem toplevel_kinds_amended :
    toplevelChildKinds.all (fun k =>
      statementMembers.contains k || declarationMembers.contains k ||
        k = "method_declaration") = true := by
  decide

/-- C10: for every expression the grammar produces, the `left` of every
`assignment_expression` node is an identifier (plain or reserved), a
`field_access`, or an `array_access`; and an arbitrary expression — here
the parenthesized expression `(x)` — can never appear as an assignment
target: `(x) = y` fails to parse as an expression. -/
theorem assignment_target_restricted :
    (∀ ts e, parseExpression ts = some e → AssignOk e = true) ∧
    parseExpression
      [Tok.sym "(", Tok.word "x", Tok.sym ")", Tok.sym "=", Tok.word "y"] =
      none := by
  constructor
  · intro ts e h
    unfold parseExpression at h
    split at h
    · simp at h
      subst h
      exact (parse_assignOk _).2.2 _ _ _ _ (by assumption)
    · exact absurd h (by simp)
  · decide

/-- Witness for C10: a parse of `a.b = c` yields an assignment whose left
is a `field_access`, and the invariant holds of it. -/
theorem assignment_target_restricted_witness :
    AssignOk (Expr.assign (Expr.fieldAcc (Expr.id "a") "b") "=" (Expr.id "c")) = true :=
  assignment_target_restricted.1
    [Tok.word "a", Tok.sym ".", Tok.word "b", Tok.sym "=", Tok.word "c"]
    (Expr.assign (Expr.fieldAcc (Expr.id "a") "b") "=" (Expr.id "c"))
    (by decide)
